import Mathlib

/-!
# Verification of the rakutak-db-checker row-identity and hash-reconciliation engine

This file gives a shallow embedding, in Lean 4, of the core logic of the
`rakutak-db-checker` repository and proves properties of it.

Embedding conventions:

* Python values flowing through the SQL helpers are modelled by the inductive
  type `PyVal` (`None`, `int`, `bool`, `str`, and a catch-all `other` carrying
  the value's Python string form, used for dates, decimals, etc.).
  Python's `float` is not modelled (no claim depends on floating point).
* Python dictionaries are modelled as association lists `List (String × K)` in
  insertion order; the dict invariant "keys are unique" appears as a `Nodup`
  hypothesis where a proof needs it.
* Database I/O steps (schema introspection, row counting, scanning) are
  modelled as `Except String`-valued inputs to the functions that perform
  them: an `Except.error` models a raised exception, an `Except.ok` models a
  successful round trip.  Pure logic is transcribed directly from the source.
-/

/-- Embedding of the Python runtime values the SQL helpers receive.
`other` carries the `str(val)` form of values such as dates and decimals. -/
inductive PyVal where
  | none
  | int (n : Int)
  | bool (b : Bool)
  | str (s : String)
  | other (s : String)
  deriving DecidableEq

/-- Python's `str(val)` for the values modelled by `PyVal`. -/
def pyStr : PyVal → String
  | PyVal.none => "None"
  | PyVal.int n => toString n
  | PyVal.bool b => if b then "True" else "False"
  | PyVal.str s => s
  | PyVal.other s => s

/-- From `src/utils/sql_utils.py`: MySQL/MariaDB reserved keywords that need
escaping (the Python set literal, duplicates collapsing as in a set). -/
def MYSQL_RESERVED_KEYWORDS : List String :=
  ["order", "type", "status", "key", "value", "group", "user", "role", "index", "unique",
   "primary", "foreign", "constraint", "table", "database", "schema", "view", "trigger",
   "procedure", "function", "cursor", "declare", "begin", "end", "if", "then", "else",
   "when", "case", "while", "loop", "repeat", "leave", "iterate", "return", "call",
   "select", "insert", "update", "delete", "create", "drop", "alter", "grant", "revoke",
   "commit", "rollback", "savepoint", "lock", "unlock", "desc", "asc", "limit", "offset",
   "union", "intersect", "except", "exists", "in", "between", "like", "regexp", "match",
   "and", "or", "not", "xor", "is", "null", "true", "false", "distinct", "all", "any",
   "some", "as", "on", "using", "join", "inner", "outer", "left", "right", "full",
   "cross", "natural", "where", "having", "by", "into", "values",
   "set", "from", "with", "recursive", "window", "partition", "over", "rows", "range",
   "unbounded", "preceding", "following", "current", "row", "show", "double", "float", "int",
   "saldo", "keterangan", "note", "dtu", "tipe", "active", "coa", "default"]

/-- From `src/utils/sql_utils.py`: PostgreSQL reserved keywords that need escaping. -/
def POSTGRESQL_RESERVED_KEYWORDS : List String :=
  ["order", "type", "user", "group", "key", "value", "role", "index", "unique", "primary",
   "foreign", "constraint", "table", "database", "schema", "view", "trigger", "procedure",
   "function", "cursor", "declare", "begin", "end", "if", "then", "else", "when", "case",
   "while", "loop", "return", "call", "select", "insert", "update", "delete", "create",
   "drop", "alter", "grant", "revoke", "commit", "rollback", "savepoint", "lock", "desc",
   "asc", "limit", "offset", "union", "intersect", "except", "exists", "in", "between",
   "like", "ilike", "similar", "and", "or", "not", "is", "null", "true", "false",
   "distinct", "all", "any", "some", "as", "on", "using", "join", "inner", "outer",
   "left", "right", "full", "cross", "natural", "where", "having",
   "by", "into", "values", "set", "from", "with", "recursive", "window", "partition",
   "over", "rows", "range", "unbounded", "preceding", "following", "current", "row",
   "double", "float", "int"]

/-- Python `str.lower()` for the ASCII identifiers handled here (character-wise
lowercasing; `String.toLower` itself is not kernel-reducible, so the map is
spelt out on the character list). -/
def str_lower (s : String) : String := String.mk (s.data.map Char.toLower)

/-- Embedding of `src/utils/sql_utils.py` `escape_column_name`: escape a column name if it
is a reserved keyword for the given database type; otherwise (including for
any database type other than mysql/mariadb/postgresql) return it unchanged. -/
def escape_column_name (column_name : String) (db_type : String) : String :=
  let column_lower := str_lower column_name
  if db_type = "mysql" ∨ db_type = "mariadb" then
    if column_lower ∈ MYSQL_RESERVED_KEYWORDS then "`" ++ column_name ++ "`"
    else column_name
  else if db_type = "postgresql" then
    if column_lower ∈ POSTGRESQL_RESERVED_KEYWORDS then "\"" ++ column_name ++ "\""
    else column_name
  else column_name

/-- Embedding of `src/utils/sql_utils.py` `escape_column_list`. -/
def escape_column_list (columns : List String) (db_type : String) : List String :=
  columns.map (fun col => escape_column_name col db_type)

/-- Embedding of `src/utils/sql_utils.py` `create_row_signature`: for `all_columns` the
signature joins the string forms of all values with `|` in the order the
values are supplied; otherwise it joins only the first
`len(identifier_columns)` values (Python `row_data[:len(identifier_columns)]`). -/
def create_row_signature (row_data : List PyVal) (identifier_columns : List String)
    (identifier_type : String) : String :=
  if identifier_type = "all_columns" then
    String.intercalate "|" (row_data.map pyStr)
  else
    String.intercalate "|" ((row_data.take identifier_columns.length).map pyStr)

/-- Embedding of `src/utils/sql_utils.py` `build_where_clause_for_pk`: conditions
`col = 'value'` joined with `" AND "`, interpolating `str(value)` with no
quote escaping.  The Python indexes `pk_values[i]` positionally; the `zip`
(and `headD` defaults) model it on aligned lists of equal length. -/
def build_where_clause_for_pk (pk_columns : List String) (pk_values : List PyVal)
    (db_type : String) : String :=
  let escaped_columns := escape_column_list pk_columns db_type
  if pk_columns.length = 1 then
    escaped_columns.headD "" ++ " = '" ++ pyStr (pk_values.headD PyVal.none) ++ "'"
  else
    String.intercalate " AND "
      ((escaped_columns.zip pk_values).map (fun p => p.1 ++ " = '" ++ pyStr p.2 ++ "'"))

/-- Python `val.replace("'", "''")`: double every embedded single quote
(character-wise model of the single-character replacement, since
`String.replace` is not kernel-reducible). -/
def double_quotes (s : String) : String :=
  String.mk (List.flatten (s.data.map (fun c => if c = '\'' then ['\'', '\''] else [c])))

/-- One condition of the WHERE clause built inside
`src/utils/sql_utils.py` `generate_update_query` (lines 368-387).  The
Python `isinstance` chain tests `str` first, then `(int, float)`; since
Python `bool` is a subclass of `int`, a boolean reaches the `(int, float)`
branch and renders as `True`/`False` (the later `bool` branch is dead). -/
def render_where_condition (col : String) (val : PyVal) (db_type : String) : String :=
  let escaped_col := escape_column_name col db_type
  match val with
  | PyVal.none => escaped_col ++ " IS NULL"
  | PyVal.str s => escaped_col ++ " = '" ++ double_quotes s ++ "'"
  | PyVal.int n => escaped_col ++ " = " ++ toString n
  | PyVal.bool b => escaped_col ++ " = " ++ (if b then "True" else "False")
  | PyVal.other s => escaped_col ++ " = '" ++ double_quotes s ++ "'"

/-- One assignment of the SET clause built inside
`src/utils/sql_utils.py` `generate_update_query` (lines 392-411); same
rendering as `render_where_condition` except `NULL` assignment. -/
def render_set_clause (col : String) (val : PyVal) (db_type : String) : String :=
  let escaped_col := escape_column_name col db_type
  match val with
  | PyVal.none => escaped_col ++ " = NULL"
  | PyVal.str s => escaped_col ++ " = '" ++ double_quotes s ++ "'"
  | PyVal.int n => escaped_col ++ " = " ++ toString n
  | PyVal.bool b => escaped_col ++ " = " ++ (if b then "True" else "False")
  | PyVal.other s => escaped_col ++ " = '" ++ double_quotes s ++ "'"

/-- Python `dict.get(col)` on a row dictionary: the stored value, or `None`
when the key is absent. -/
def dictGet (d : List (String × PyVal)) (col : String) : PyVal :=
  match d.find? (fun p => p.1 == col) with
  | Option.none => PyVal.none
  | Option.some p => p.2

/-- The `different_columns` / `update_values` loop of
`src/utils/sql_utils.py` `generate_update_query` (lines 345-359): iterate the
source row's keys, skip ignored columns, and collect `(col, source value)`
for every column whose source and target values differ. -/
def update_values (source_data target_data : List (String × PyVal))
    (ignored_columns : List String) : List (String × PyVal) :=
  (source_data.map Prod.fst).filterMap (fun col =>
    if col ∈ ignored_columns then Option.none
    else
      let source_val := dictGet source_data col
      let target_val := dictGet target_data col
      if source_val ≠ target_val then Option.some (col, source_val) else Option.none)

/-- Embedding of `src/utils/sql_utils.py` `generate_update_query`: `None` when no
non-ignored column differs, otherwise
`UPDATE <table> SET <assignments> WHERE <identifier predicate>;`. -/
def generate_update_query (table_name : String) (identifier_columns : List String)
    (identifier_values : List PyVal) (source_data target_data : List (String × PyVal))
    (db_type : String) (ignored_columns : List String) : Option String :=
  let uv := update_values source_data target_data ignored_columns
  if uv.isEmpty then Option.none
  else
    let escaped_table := escape_column_name table_name db_type
    let where_clause := String.intercalate " AND "
      ((identifier_columns.zip identifier_values).map
        (fun p => render_where_condition p.1 p.2 db_type))
    let set_clause := String.intercalate ", "
      (uv.map (fun p => render_set_clause p.1 p.2 db_type))
    Option.some ("UPDATE " ++ escaped_table ++ " SET " ++ set_clause ++
      " WHERE " ++ where_clause ++ ";")

/-- Python truthiness of the optional `available_columns` argument
(`if available_columns:` is false for `None` and for the empty list). -/
def avail_truthy (available_columns : Option (List String)) : Bool :=
  match available_columns with
  | Option.none => false
  | Option.some l => !l.isEmpty

/-- The unique-constraint loop of `src/utils/sql_utils.py`
`get_suitable_row_identifier` (lines 202-211): the first constraint all of
whose columns are available is returned (filtered, which under the length
check equals the constraint itself); with a falsy `available_columns` the
first constraint is returned unconditionally. -/
def find_unique_constraint (unique_constraints : List (List String))
    (available_columns : Option (List String)) : Option (List String) :=
  match unique_constraints with
  | [] => Option.none
  | unique_cols :: rest =>
    if avail_truthy available_columns then
      let filtered_unique := unique_cols.filter
        (fun col => (available_columns.getD []).contains col)
      if filtered_unique.length = unique_cols.length then Option.some filtered_unique
      else find_unique_constraint rest available_columns
    else Option.some unique_cols

/-- Embedding of `src/utils/sql_utils.py` `get_suitable_row_identifier`: priority order
primary key, then first fully-available unique constraint, then all columns.
The schema-introspection results (`pk_columns`, `unique_constraints`,
`all_table_columns` for `get_table_columns`) are passed in as inputs. -/
def get_suitable_row_identifier (pk_columns : List String)
    (unique_constraints : List (List String)) (all_table_columns : List String)
    (available_columns : Option (List String)) : List String × String :=
  let viaUnique : List String × String :=
    match find_unique_constraint unique_constraints available_columns with
    | Option.some unique_cols => (unique_cols, "unique_constraint")
    | Option.none =>
      if avail_truthy available_columns then (available_columns.getD [], "all_columns")
      else (all_table_columns, "all_columns")
  if !pk_columns.isEmpty then
    if avail_truthy available_columns then
      let pk_filtered := pk_columns.filter (fun col => (available_columns.getD []).contains col)
      if !pk_filtered.isEmpty then (pk_filtered, "primary_key")
      else viaUnique
    else (pk_columns, "primary_key")
  else viaUnique

/-- Python `hashes[row_signature] = row_hash` on a dict modelled as an
association list in insertion order: overwrite in place when the key exists,
append otherwise. -/
def dict_insert (hashes : List (String × String)) (k v : String) :
    List (String × String) :=
  if hashes.any (fun p => p.1 == k) then
    hashes.map (fun p => if p.1 == k then (k, v) else p)
  else hashes ++ [(k, v)]

/-- The hash-accumulation step shared by `_get_all_table_hashes`,
`_get_chunked_sample_hashes` and `_get_sampled_table_hashes` in
`src/validators/hash_compare.py`: each scanned row contributes its
`(row_signature, row_hash)` pair via `hashes[row_signature] = row_hash`,
in scan order, with no duplicate-signature check. -/
def accumulate_hashes (scanned : List (String × String)) : List (String × String) :=
  scanned.foldl (fun hashes p => dict_insert hashes p.1 p.2) []

/-- Python `dict` lookup on the association-list model: value of the first
entry with the given key. -/
def lookupD (hashes : List (String × String)) (k : String) : Option String :=
  match hashes.find? (fun p => p.1 == k) with
  | Option.none => Option.none
  | Option.some p => Option.some p.2

/-- The paginated full-scan loop of `src/validators/hash_compare.py`
`_get_all_table_hashes` (lines 289-326) over a table of `N` rows with chunk
size `c`: the trace of `(offset, rows returned)` pairs of the issued page
requests.  A page request at `offset` returns `min c (N - offset)` rows; the
loop breaks on the first empty page and otherwise advances the offset by `c`. -/
def scanTrace (c N offset : Nat) : List (Nat × Nat) :=
  if h : min c (N - offset) = 0 then [(offset, 0)]
  else (offset, min c (N - offset)) :: scanTrace c N (offset + c)
termination_by N - offset
decreasing_by
  rw [Nat.min_eq_zero_iff] at h
  push_neg at h
  omega

/-- A mismatch record as produced by `validate_table` in
`src/validators/hash_compare.py` (the dictionaries appended to `mismatches`);
hash fields absent from a given record kind are `Option.none`. -/
structure MismatchRecord where
  row_identifier : String
  status : String
  source_hash : Option String
  target_hash : Option String
  deriving DecidableEq

/-- The sampled-mode comparison loop of `validate_table`
(`src/validators/hash_compare.py` lines 764-813): only signatures present in
both maps are compared, and only `hash_mismatch` records are produced.
(The Python iterates the unordered set `common_row_ids`; the model iterates
the source map in insertion order, which fixes one of the admissible
orders.) -/
def compare_sampled (source_hashes target_hashes : List (String × String)) :
    List MismatchRecord :=
  source_hashes.filterMap (fun p =>
    match lookupD target_hashes p.1 with
    | Option.none => Option.none
    | Option.some target_hash =>
      if p.2 ≠ target_hash then
        Option.some { row_identifier := p.1, status := "hash_mismatch",
                      source_hash := Option.some p.2, target_hash := Option.some target_hash }
      else Option.none)

/-- The first loop of full-scan comparison in `validate_table`
(`src/validators/hash_compare.py` lines 817-882): one pass over the source
map producing a `missing_in_target` record for each signature absent from the
target map and a `hash_mismatch` record for each common signature whose
hashes differ. -/
def compare_full_source_pass (source_hashes target_hashes : List (String × String)) :
    List MismatchRecord :=
  source_hashes.filterMap (fun p =>
    match lookupD target_hashes p.1 with
    | Option.none =>
      Option.some { row_identifier := p.1, status := "missing_in_target",
                    source_hash := Option.some p.2, target_hash := Option.none }
    | Option.some target_hash =>
      if target_hash ≠ p.2 then
        Option.some { row_identifier := p.1, status := "hash_mismatch",
                      source_hash := Option.some p.2, target_hash := Option.some target_hash }
      else Option.none)

/-- The second loop of full-scan comparison in `validate_table`
(`src/validators/hash_compare.py` lines 884-892): one pass over the target
map producing a `missing_in_source` record for each signature absent from
the source map. -/
def compare_full_target_pass (source_hashes target_hashes : List (String × String)) :
    List MismatchRecord :=
  target_hashes.filterMap (fun p =>
    match lookupD source_hashes p.1 with
    | Option.none =>
      Option.some { row_identifier := p.1, status := "missing_in_source",
                    source_hash := Option.none, target_hash := Option.some p.2 }
    | Option.some _ => Option.none)

/-- The full-scan comparison of `validate_table`
(`src/validators/hash_compare.py` lines 814-892): the source pass followed by
the target pass, appending to the same `mismatches` list. -/
def compare_full (source_hashes target_hashes : List (String × String)) :
    List MismatchRecord :=
  compare_full_source_pass source_hashes target_hashes ++
    compare_full_target_pass source_hashes target_hashes

/-- The comparison phase of `validate_table`, bifurcating on `sampling_used`. -/
def compare_hashes (sampling_used : Bool)
    (source_hashes target_hashes : List (String × String)) : List MismatchRecord :=
  if sampling_used then compare_sampled source_hashes target_hashes
  else compare_full source_hashes target_hashes

/-- The validation-relevant configuration read by `HashValidator.__init__`. -/
structure ValConfig where
  ignored_columns : List String
  sampling_enabled : Bool
  max_rows_for_full_scan : Nat

/-- The database round trips performed by `validate_table`
(`src/validators/hash_compare.py`), in program order, each modelled as an
`Except`: `Except.error` is a raised exception, `Except.ok` a result.
The identifier results pair the identifier columns with the identifier type
string; the hash results are the identifier-to-hash maps returned by
`_get_table_hashes_with_sampling` on each side. -/
structure TableEnv where
  config : ValConfig
  source_columns : Except String (List String)
  target_columns : Except String (List String)
  source_identifier : Except String (List String × String)
  target_identifier : Except String (List String × String)
  source_row_count : Except String Nat
  target_row_count : Except String Nat
  source_hashes : Except String (List (String × String))
  target_hashes : Except String (List (String × String))

/-- The result dictionary of `validate_table` restricted to the
claim-relevant keys (the reporting-only keys `sample_size`,
`fix_queries_generated`, `columns_used`, `sampled_rows_*` and
`ignored_columns` are omitted; keys the Python error dictionaries lack are
filled with defaults `[]`/`false`/`0`). -/
structure TableResult where
  status : String
  error : Option String
  mismatches : List MismatchRecord
  sampling_used : Bool
  total_rows_source : Nat
  total_rows_target : Nat
  compared_rows : Nat
  deriving DecidableEq

/-- An error result of `validate_table`: the early schema/identifier error
returns and the final `except` clause both produce `status = "error"` with a
message. -/
def errResult (msg : String) : TableResult :=
  { status := "error", error := Option.some msg, mismatches := [],
    sampling_used := false, total_rows_source := 0, total_rows_target := 0,
    compared_rows := 0 }

/-- The `source_filtered` / `target_filtered` locals of `validate_table`
(`self._filter_columns`): the column list with ignored columns removed. -/
def filtered_columns (config : ValConfig) (columns : List String) : List String :=
  columns.filter (fun c => !(config.ignored_columns.contains c))

/-- The body of `validate_table` in `src/validators/hash_compare.py`
(inside its `try`), with each database round trip drawn from the
environment in program order: a raised exception short-circuits the body
as `Except.error`; schema and identifier mismatches are ordinary returns
with `status = "error"`.  (`final_columns` only parameterises the scans,
which are environment inputs here, so it is not recomputed.) -/
def validate_table_body (env : TableEnv) : Except String TableResult :=
  match env.source_columns with
  | Except.error e => Except.error e
  | Except.ok source_columns =>
  match env.target_columns with
  | Except.error e => Except.error e
  | Except.ok target_columns =>
  if !((filtered_columns env.config source_columns).all
        (fun c => (filtered_columns env.config target_columns).contains c) &&
       (filtered_columns env.config target_columns).all
        (fun c => (filtered_columns env.config source_columns).contains c)) then
    Except.ok (errResult "Schema mismatch detected (excluding ignored columns)")
  else if filtered_columns env.config source_columns ≠
      filtered_columns env.config target_columns then
    Except.ok (errResult "Column order mismatch (excluding ignored)")
  else
  match env.source_identifier with
  | Except.error e => Except.error e
  | Except.ok source_id =>
  match env.target_identifier with
  | Except.error e => Except.error e
  | Except.ok target_id =>
  if source_id.2 ≠ target_id.2 then
    Except.ok (errResult "Row identifier type mismatch")
  else if source_id.1 ≠ target_id.1 then
    Except.ok (errResult "Row identifier columns mismatch")
  else
  match env.source_row_count with
  | Except.error e => Except.error e
  | Except.ok source_row_count =>
  match env.target_row_count with
  | Except.error e => Except.error e
  | Except.ok target_row_count =>
  match env.source_hashes with
  | Except.error e => Except.error e
  | Except.ok source_hashes =>
  match env.target_hashes with
  | Except.error e => Except.error e
  | Except.ok target_hashes =>
  let sampling_used := env.config.sampling_enabled &&
    (decide (source_row_count > env.config.max_rows_for_full_scan) ||
     decide (target_row_count > env.config.max_rows_for_full_scan))
  let mismatches := compare_hashes sampling_used source_hashes target_hashes
  let common_row_ids := source_hashes.filter
    (fun p => target_hashes.any (fun q => q.1 == p.1))
  Except.ok
    { status := if mismatches.isEmpty then "success" else "mismatch",
      error := Option.none,
      mismatches := mismatches,
      sampling_used := sampling_used,
      total_rows_source := source_row_count,
      total_rows_target := target_row_count,
      compared_rows :=
        if sampling_used then common_row_ids.length else source_hashes.length }

/-- Embedding of `validate_table` with its outer `try/except`: a raised exception from any
round trip is caught and converted to an error result; nothing propagates to
the caller. -/
def validate_table (env : TableEnv) : TableResult :=
  match validate_table_body env with
  | Except.ok result => result
  | Except.error e => errResult e

/-- Embedding of `src/validators/base.py` `validate_all` (lines 95-146): every configured
table is validated in order; a `validate_table` call that raises (modelled by
`Except.error`) is caught per table and recorded as an error result, so the
loop always continues to the next table. -/
def validate_all (tables : List String)
    (outcome : String → Except String TableResult) : List (String × TableResult) :=
  tables.map (fun table =>
    (table,
      match outcome table with
      | Except.ok result => result
      | Except.error e => errResult e))

/-- A concrete environment in which sampling is in force (sampling enabled,
both row counts above the threshold) and the two samples share signature
`1` with differing hashes; used to instantiate the sampled-mode theorem. -/
def env_sampled : TableEnv :=
  { config := { ignored_columns := [], sampling_enabled := true,
                max_rows_for_full_scan := 0 },
    source_columns := Except.ok ["id"],
    target_columns := Except.ok ["id"],
    source_identifier := Except.ok (["id"], "primary_key"),
    target_identifier := Except.ok (["id"], "primary_key"),
    source_row_count := Except.ok 1,
    target_row_count := Except.ok 1,
    source_hashes := Except.ok [("1", "a")],
    target_hashes := Except.ok [("1", "b")] }

/-- A concrete environment for full-scan mode: source rows `1, 2`, target
rows `1, 3`, with signature `1` hashing equal on both sides. -/
def env_full : TableEnv :=
  { config := { ignored_columns := [], sampling_enabled := false,
                max_rows_for_full_scan := 0 },
    source_columns := Except.ok ["id"],
    target_columns := Except.ok ["id"],
    source_identifier := Except.ok (["id"], "primary_key"),
    target_identifier := Except.ok (["id"], "primary_key"),
    source_row_count := Except.ok 2,
    target_row_count := Except.ok 2,
    source_hashes := Except.ok [("1", "a"), ("2", "b")],
    target_hashes := Except.ok [("1", "a"), ("3", "c")] }

/-- A concrete environment whose very first introspection step raises. -/
def env_err : TableEnv :=
  { config := { ignored_columns := [], sampling_enabled := false,
                max_rows_for_full_scan := 0 },
    source_columns := Except.error "boom",
    target_columns := Except.ok ["id"],
    source_identifier := Except.ok (["id"], "primary_key"),
    target_identifier := Except.ok (["id"], "primary_key"),
    source_row_count := Except.ok 0,
    target_row_count := Except.ok 0,
    source_hashes := Except.ok [],
    target_hashes := Except.ok [] }

/-- A per-table outcome in which every table's validation raises. -/
def outcome_err : String → Except String TableResult :=
  fun _ => Except.error "table exploded"

section SignatureClaims

/-- The claim of spec §3/§4.2 for `AllColumns` fails on the code:
`create_row_signature` joins the supplied values in supply order, with no
sorting by column name, so two rows with identical (column, value) content
supplied in different column orders get different signatures.
C4 counterexample: content (a ↦ 1, b ↦ 2) supplied as [1, 2] with
columns [a, b] versus as [2, 1] with columns [b, a]. -/
theorem c4_all_columns_signature_not_order_independent :
    create_row_signature [PyVal.int 1, PyVal.int 2] ["a", "b"] "all_columns" ≠
      create_row_signature [PyVal.int 2, PyVal.int 1] ["b", "a"] "all_columns" := by
  decide

/-- C4 (amended): for identifier kind `all_columns` the row signature is the
`|`-join of the values' string forms in the order supplied; it depends only
on the value list and not on the column names (hence it is not sorted by
column name and is sensitive to the order in which columns are supplied). -/
theorem c4_all_columns_signature_value_order_join :
    ∀ (row_data : List PyVal) (cols1 cols2 : List String),
      create_row_signature row_data cols1 "all_columns"
          = create_row_signature row_data cols2 "all_columns"
        ∧ create_row_signature row_data cols1 "all_columns"
          = String.intercalate "|" (row_data.map pyStr) := by
  intro row_data cols1 cols2
  exact ⟨rfl, rfl⟩

end SignatureClaims

section EscapeClaims

/-- The final part of claim C8 fails on the code: for a dialect outside the
supported set (`mysql`/`mariadb`/`postgresql`), `escape_column_name` is not a
hard error — it returns the name unchanged, even for a name (here `order`)
that is reserved in both supported dialects. -/
theorem c8_unsupported_dialect_returns_value :
    escape_column_name "order" "sqlite" = "order" := by decide

/-- C8 (amended): `escape_column_name` wraps the name in dialect-specific
quoting exactly when its lowercase form is in that dialect's static
reserved-word set, and otherwise returns it unchanged; for a dialect outside
the supported set it returns the name unchanged (no error). -/
theorem c8_escape_reserved_words_only :
    ∀ (name db : String),
      ((db = "mysql" ∨ db = "mariadb") →
        (str_lower name ∈ MYSQL_RESERVED_KEYWORDS →
          escape_column_name name db = "`" ++ name ++ "`") ∧
        (str_lower name ∉ MYSQL_RESERVED_KEYWORDS →
          escape_column_name name db = name)) ∧
      (db = "postgresql" →
        (str_lower name ∈ POSTGRESQL_RESERVED_KEYWORDS →
          escape_column_name name db = "\"" ++ name ++ "\"") ∧
        (str_lower name ∉ POSTGRESQL_RESERVED_KEYWORDS →
          escape_column_name name db = name)) ∧
      (¬ (db = "mysql" ∨ db = "mariadb" ∨ db = "postgresql") →
        escape_column_name name db = name) := by
  intro name db
  refine ⟨fun hdb => ⟨fun hin => ?_, fun hout => ?_⟩,
          fun hdb => ⟨fun hin => ?_, fun hout => ?_⟩, fun hdb => ?_⟩
  · rcases hdb with h | h <;> simp [escape_column_name, h, hin]
  · rcases hdb with h | h <;> simp [escape_column_name, h, hout]
  · simp [escape_column_name, hdb, hin]
  · simp [escape_column_name, hdb, hout]
  · push_neg at hdb
    simp [escape_column_name, hdb.1, hdb.2.1, hdb.2.2]

theorem c8_escape_reserved_words_only_witness :
    escape_column_name "order" "mysql" = "`order`" ∧
      escape_column_name "name" "postgresql" = "name" :=
  ⟨((c8_escape_reserved_words_only "order" "mysql").1 (Or.inl rfl)).1 (by decide),
   ((c8_escape_reserved_words_only "name" "postgresql").2.1 rfl).2 (by decide)⟩

end EscapeClaims

section WhereClauseClaims

/-- C10: `build_where_clause_for_pk` produces exactly the conditions
`col = 'str(value)'` joined by `" AND "` (its single-column special case
agrees with the general join), and each value's string form is interpolated
with no escaping — a value containing a single quote keeps it unescaped —
unlike the WHERE rendering inside `generate_update_query`
(`render_where_condition`), which doubles embedded single quotes. -/
theorem c10_pk_where_clause_interpolates_unescaped :
    (∀ (pk_columns : List String) (pk_values : List PyVal) (db_type : String),
      pk_columns.length = pk_values.length →
      build_where_clause_for_pk pk_columns pk_values db_type =
        String.intercalate " AND "
          (((escape_column_list pk_columns db_type).zip pk_values).map
            (fun p => p.1 ++ " = '" ++ pyStr p.2 ++ "'"))) ∧
    (∀ (col s db : String),
      build_where_clause_for_pk [col] [PyVal.str s] db
        = escape_column_name col db ++ " = '" ++ s ++ "'") ∧
    build_where_clause_for_pk ["name"] [PyVal.str "O'Brien"] "mysql"
      = "name = 'O'Brien'" ∧
    render_where_condition "name" (PyVal.str "O'Brien") "mysql"
      = "name = 'O''Brien'" := by
  refine ⟨?_, ?_, by decide, by decide⟩
  · intro pk_columns pk_values db_type hlen
    by_cases h1 : pk_columns.length = 1
    · obtain ⟨c, rfl⟩ := List.length_eq_one.mp h1
      obtain ⟨v, rfl⟩ := List.length_eq_one.mp (hlen ▸ h1)
      simp [build_where_clause_for_pk, escape_column_list,
        String.intercalate, String.intercalate.go]
    · simp [build_where_clause_for_pk, h1]
  · intro col s db
    simp [build_where_clause_for_pk, escape_column_list, pyStr,
      String.intercalate, String.intercalate.go]

theorem c10_pk_where_clause_interpolates_unescaped_witness :
    build_where_clause_for_pk ["a", "b"] [PyVal.int 1, PyVal.str "x"] "sqlite"
      = "a = '1' AND b = 'x'" := by
  have h := c10_pk_where_clause_interpolates_unescaped.1
    ["a", "b"] [PyVal.int 1, PyVal.str "x"] "sqlite" (by decide)
  rw [h]; decide

end WhereClauseClaims

section IdentifierClaims

lemma avail_truthy_some {avail : List String} (h : avail ≠ []) :
    avail_truthy (Option.some avail) = true := by
  simp [avail_truthy, h]

/-- With a non-empty restriction list, the unique-constraint loop returns the
first enumerated constraint all of whose columns are available. -/
lemma find_unique_constraint_eq_find? (ucs : List (List String)) (avail : List String)
    (h : avail ≠ []) :
    find_unique_constraint ucs (Option.some avail)
      = ucs.find? (fun u => u.all (fun c => avail.contains c)) := by
  induction ucs with
  | nil => rfl
  | cons u rest ih =>
    rw [find_unique_constraint, avail_truthy_some h]
    simp only [if_true, Option.getD_some, List.find?_cons]
    by_cases hl : (u.filter (fun col => avail.contains col)).length = u.length
    · have hall : ∀ c ∈ u, avail.contains c := List.filter_length_eq_length.mp hl
      have hfe : u.filter (fun col => avail.contains col) = u :=
        List.filter_eq_self.mpr hall
      have hpred : u.all (fun c => avail.contains c) = true := List.all_eq_true.mpr hall
      rw [if_pos hl, hfe, hpred]
    · have hpred : u.all (fun c => avail.contains c) = false := by
        rw [Bool.eq_false_iff]
        intro hc
        exact hl (List.filter_length_eq_length.mpr (List.all_eq_true.mp hc))
      rw [if_neg hl, hpred, ih]

/-- C5: identifier resolution priority.  If some primary-key column set is
non-empty and entirely contained in the available columns, resolution returns
those columns with kind `primary_key`, regardless of the unique constraints.
Only when no primary-key column survives the availability filter does it
return the first enumerated unique constraint all of whose columns are
available (kind `unique_constraint`), and only when no such constraint exists
either does it return all available columns with kind `all_columns`.
(The available-columns restriction is assumed non-empty: Python treats an
empty list like `None`, i.e. as no restriction at all.) -/
theorem c5_identifier_resolution_priority :
    ∀ (pk_columns : List String) (unique_constraints : List (List String))
      (all_table_columns : List String) (avail : List String),
      (pk_columns ≠ [] → (∀ c ∈ pk_columns, c ∈ avail) →
        get_suitable_row_identifier pk_columns unique_constraints all_table_columns
          (Option.some avail) = (pk_columns, "primary_key")) ∧
      (avail ≠ [] → pk_columns.filter (fun c => avail.contains c) = [] →
        (∀ u, unique_constraints.find? (fun u => u.all (fun c => avail.contains c))
            = Option.some u →
          get_suitable_row_identifier pk_columns unique_constraints all_table_columns
            (Option.some avail) = (u, "unique_constraint")) ∧
        (unique_constraints.find? (fun u => u.all (fun c => avail.contains c))
            = Option.none →
          get_suitable_row_identifier pk_columns unique_constraints all_table_columns
            (Option.some avail) = (avail, "all_columns"))) := by
  intro pk_columns unique_constraints all_table_columns avail
  constructor
  · intro hpk hsub
    have havail : avail ≠ [] := by
      obtain ⟨c, hc⟩ := List.exists_mem_of_ne_nil pk_columns hpk
      exact List.ne_nil_of_mem (hsub c hc)
    rw [get_suitable_row_identifier]
    simp only [avail_truthy_some havail, Option.getD_some]
    simp [hpk]
    have hex : ∃ x ∈ pk_columns, x ∈ avail := by
      obtain ⟨c, hc⟩ := List.exists_mem_of_ne_nil pk_columns hpk
      exact ⟨c, hc, hsub c hc⟩
    rw [if_pos hex, List.filter_eq_self.mpr (fun a ha => by simpa using hsub a ha)]
  · intro havail hfilter
    have hkey : ∀ r : List String × String,
        (match find_unique_constraint unique_constraints (Option.some avail) with
          | Option.some u => (u, "unique_constraint")
          | Option.none =>
            if avail_truthy (Option.some avail) then
              ((Option.some avail).getD [], "all_columns")
            else (all_table_columns, "all_columns")) = r →
        get_suitable_row_identifier pk_columns unique_constraints all_table_columns
          (Option.some avail) = r := by
      intro r hr
      rw [get_suitable_row_identifier]
      by_cases hpk : pk_columns.isEmpty
      · simpa [hpk] using hr
      · have hmem : ∀ a ∈ pk_columns, ¬(avail.contains a = true) :=
          List.filter_eq_nil_iff.mp hfilter
        have hnone : ¬∃ x ∈ pk_columns, x ∈ avail := by
          rintro ⟨x, hx, hxa⟩
          exact hmem x hx (by simpa using hxa)
        simpa [hpk, avail_truthy_some havail, Option.getD, hnone] using hr
    constructor
    · intro u hfind
      refine hkey _ ?_
      rw [find_unique_constraint_eq_find? _ _ havail, hfind]
    · intro hfind
      refine hkey _ ?_
      rw [find_unique_constraint_eq_find? _ _ havail, hfind]
      simp [avail_truthy_some havail, Option.getD]

theorem c5_identifier_resolution_priority_witness :
    get_suitable_row_identifier ["id"] [["u"]] ["id", "u", "v"]
        (Option.some ["id", "u", "v"]) = (["id"], "primary_key") ∧
      get_suitable_row_identifier [] [["w"], ["u"]] ["id", "u", "v"]
        (Option.some ["id", "u", "v"]) = (["u"], "unique_constraint") ∧
      get_suitable_row_identifier [] [["w"]] ["id", "u", "v"]
        (Option.some ["id", "u", "v"]) = (["id", "u", "v"], "all_columns") :=
  ⟨(c5_identifier_resolution_priority ["id"] [["u"]] ["id", "u", "v"] ["id", "u", "v"]).1
      (by decide) (by decide),
   ((c5_identifier_resolution_priority [] [["w"], ["u"]] ["id", "u", "v"]
        ["id", "u", "v"]).2 (by decide) (by decide)).1 ["u"] (by decide),
   ((c5_identifier_resolution_priority [] [["w"]] ["id", "u", "v"]
        ["id", "u", "v"]).2 (by decide) (by decide)).2 (by decide)⟩

end IdentifierClaims

section UpdateQueryClaims

/-- Membership in the collected `update_values` list characterises exactly
the differing non-ignored source columns, each paired with its source
value. -/
lemma mem_update_values (source_data target_data : List (String × PyVal))
    (ignored : List String) (col : String) (v : PyVal) :
    (col, v) ∈ update_values source_data target_data ignored ↔
      (col ∈ source_data.map Prod.fst ∧ col ∉ ignored ∧
       v = dictGet source_data col ∧
       dictGet source_data col ≠ dictGet target_data col) := by
  unfold update_values
  rw [List.mem_filterMap]
  constructor
  · rintro ⟨a, ha, hf⟩
    by_cases hig : a ∈ ignored
    · simp [hig] at hf
    · by_cases hne : dictGet source_data a = dictGet target_data a
      · simp [hig, hne] at hf
      · simp only [hig, if_false, if_neg, hne, ite_not] at hf
        simp [hig, hne] at hf
        obtain ⟨rfl, rfl⟩ := hf
        exact ⟨ha, hig, rfl, hne⟩
  · rintro ⟨hmem, hig, hv, hne⟩
    exact ⟨col, hmem, by simp [hig, hne, hv]⟩

/-- C7: `generate_update_query` returns `none` exactly when no non-ignored
column of the source row differs from the target row; otherwise it returns
an UPDATE statement whose SET clause assigns exactly the differing
non-ignored columns, each set to the source value (`update_values` collects
precisely those assignments, in source-column order). -/
theorem c7_update_query_exactly_differing_columns :
    ∀ (table : String) (identifier_columns : List String)
      (identifier_values : List PyVal)
      (source_data target_data : List (String × PyVal))
      (db : String) (ignored : List String),
      (∀ c, c ∈ source_data.map Prod.fst ↔ c ∈ target_data.map Prod.fst) →
      ((generate_update_query table identifier_columns identifier_values
          source_data target_data db ignored = Option.none ↔
        ∀ col ∈ source_data.map Prod.fst, col ∉ ignored →
          dictGet source_data col = dictGet target_data col) ∧
       (∀ col v, (col, v) ∈ update_values source_data target_data ignored ↔
          (col ∈ source_data.map Prod.fst ∧ col ∉ ignored ∧
           v = dictGet source_data col ∧
           dictGet source_data col ≠ dictGet target_data col)) ∧
       (update_values source_data target_data ignored ≠ [] →
        generate_update_query table identifier_columns identifier_values
            source_data target_data db ignored =
          Option.some ("UPDATE " ++ escape_column_name table db ++ " SET " ++
            String.intercalate ", "
              ((update_values source_data target_data ignored).map
                (fun p => render_set_clause p.1 p.2 db)) ++
            " WHERE " ++
            String.intercalate " AND "
              (((identifier_columns.zip identifier_values)).map
                (fun p => render_where_condition p.1 p.2 db)) ++ ";"))) := by
  intro table identifier_columns identifier_values source_data target_data db ignored hsame
  refine ⟨?_, mem_update_values source_data target_data ignored, ?_⟩
  · unfold generate_update_query
    by_cases hempty : (update_values source_data target_data ignored).isEmpty
    · simp only [hempty, if_true]
      constructor
      · intro _ col hmem hig
        by_contra hne
        have : (col, dictGet source_data col) ∈
            update_values source_data target_data ignored :=
          (mem_update_values source_data target_data ignored col _).mpr
            ⟨hmem, hig, rfl, hne⟩
        rw [List.isEmpty_iff.mp hempty] at this
        simp at this
      · intro _
        trivial
    · simp only [hempty, if_false]
      constructor
      · intro hcontra
        simp at hcontra
      · intro hall
        exfalso
        have hempty2 : update_values source_data target_data ignored ≠ [] := by
          simpa [List.isEmpty_iff] using hempty
        obtain ⟨⟨col, v⟩, hcv⟩ := List.exists_mem_of_ne_nil _ hempty2
        obtain ⟨hmem, hig, _, hne⟩ :=
          (mem_update_values source_data target_data ignored col v).mp hcv
        exact hne (hall col hmem hig)
  · intro hne
    unfold generate_update_query
    have : ¬(update_values source_data target_data ignored).isEmpty := by
      simpa [List.isEmpty_iff] using hne
    simp [this]

theorem c7_update_query_exactly_differing_columns_witness :
    generate_update_query "t" ["id"] [PyVal.int 1]
        [("id", PyVal.int 1), ("v", PyVal.str "a")]
        [("id", PyVal.int 1), ("v", PyVal.str "a")] "mysql" [] = Option.none ∧
      generate_update_query "t" ["id"] [PyVal.int 1]
        [("id", PyVal.int 1), ("v", PyVal.str "a")]
        [("id", PyVal.int 1), ("v", PyVal.str "b")] "mysql" []
      = Option.some "UPDATE t SET v = 'a' WHERE id = 1;" := by
  constructor
  · exact (c7_update_query_exactly_differing_columns "t" ["id"] [PyVal.int 1]
      [("id", PyVal.int 1), ("v", PyVal.str "a")]
      [("id", PyVal.int 1), ("v", PyVal.str "a")] "mysql" []
      (fun _ => Iff.rfl)).1.mpr (by decide)
  · have h := (c7_update_query_exactly_differing_columns "t" ["id"] [PyVal.int 1]
      [("id", PyVal.int 1), ("v", PyVal.str "a")]
      [("id", PyVal.int 1), ("v", PyVal.str "b")] "mysql" []
      (fun _ => Iff.rfl)).2.2 (by decide)
    rw [h]; decide

end UpdateQueryClaims

section AccumulationClaims

lemma lookupD_cons (q : String × String) (t : List (String × String)) (a : String) :
    lookupD (q :: t) a = if q.1 = a then Option.some q.2 else lookupD t a := by
  by_cases h : q.1 = a <;> simp [lookupD, List.find?_cons, h]

lemma lookupD_append (l1 l2 : List (String × String)) (a : String) :
    lookupD (l1 ++ l2) a =
      match lookupD l1 a with
      | Option.some v => Option.some v
      | Option.none => lookupD l2 a := by
  unfold lookupD
  rw [List.find?_append]
  cases h : l1.find? (fun p => p.1 == a) <;> simp [h, Option.or]

lemma lookupD_eq_none_of_not_mem (m : List (String × String)) (a : String)
    (h : a ∉ m.map Prod.fst) : lookupD m a = Option.none := by
  unfold lookupD
  rw [List.find?_eq_none.mpr]
  intro p hp
  simp only [beq_iff_eq]
  intro hpa
  exact h (List.mem_map.mpr ⟨p, hp, hpa⟩)

lemma lookupD_map_subst_ne (t : List (String × String)) (k v a : String) (hak : a ≠ k) :
    lookupD (t.map (fun p => if p.1 == k then (k, v) else p)) a = lookupD t a := by
  induction t with
  | nil => rfl
  | cons q t ih =>
    by_cases hqk : q.1 = k
    · simp only [List.map_cons, if_pos (show (q.1 == k) = true by simp [hqk])]
      rw [lookupD_cons, lookupD_cons, if_neg (fun h => hak h.symm), ih,
        if_neg (fun h : q.1 = a => hak (hqk ▸ h).symm)]
    · simp only [List.map_cons, if_neg (show ¬(q.1 == k) = true by simp [hqk])]
      rw [lookupD_cons, lookupD_cons]
      by_cases hqa : q.1 = a
      · rw [if_pos hqa, if_pos hqa]
      · rw [if_neg hqa, if_neg hqa, ih]

lemma lookupD_map_subst_mem (t : List (String × String)) (k v : String)
    (hk : k ∈ t.map Prod.fst) :
    lookupD (t.map (fun p => if p.1 == k then (k, v) else p)) k = Option.some v := by
  induction t with
  | nil => simp at hk
  | cons q t ih =>
    by_cases hqk : q.1 = k
    · simp only [List.map_cons, if_pos (show (q.1 == k) = true by simp [hqk])]
      rw [lookupD_cons, if_pos rfl]
    · simp only [List.map_cons, if_neg (show ¬(q.1 == k) = true by simp [hqk])]
      rw [lookupD_cons, if_neg hqk]
      refine ih ?_
      rcases List.mem_map.mp hk with ⟨p, hp, hpk⟩
      rcases List.mem_cons.mp hp with rfl | hpt
      · exact absurd hpk hqk
      · exact List.mem_map.mpr ⟨p, hpt, hpk⟩

/-- Inserting with `hashes[k] = v` overwrites the value stored at `k` and leaves all other
keys' values unchanged. -/
lemma lookupD_dict_insert (m : List (String × String)) (k v a : String) :
    lookupD (dict_insert m k v) a = if a = k then Option.some v else lookupD m a := by
  unfold dict_insert
  by_cases hany : m.any (fun p => p.1 == k) = true
  · rw [if_pos hany]
    have hk : k ∈ m.map Prod.fst := by
      obtain ⟨p, hp, hpk⟩ := List.any_eq_true.mp hany
      exact List.mem_map.mpr ⟨p, hp, by simpa using hpk⟩
    by_cases hak : a = k
    · subst hak
      rw [if_pos rfl, lookupD_map_subst_mem m a v hk]
    · rw [if_neg hak, lookupD_map_subst_ne m k v a hak]
  · rw [if_neg hany]
    have hk : k ∉ m.map Prod.fst := by
      intro hmem
      obtain ⟨p, hp, hpk⟩ := List.mem_map.mp hmem
      exact hany (List.any_eq_true.mpr ⟨p, hp, by simp [hpk]⟩)
    rw [lookupD_append]
    by_cases hak : a = k
    · subst hak
      rw [lookupD_eq_none_of_not_mem m a hk]
      simp [lookupD_cons]
    · rw [if_neg hak]
      have h2 : lookupD [(k, v)] a = Option.none := by
        rw [lookupD_cons, if_neg (fun h => hak h.symm)]
        rfl
      cases h : lookupD m a <;> simp [h, h2]

lemma dict_insert_length_le (m : List (String × String)) (k v : String) :
    (dict_insert m k v).length ≤ m.length + 1 := by
  unfold dict_insert
  split <;> simp

lemma dict_insert_length_of_mem (m : List (String × String)) (k v : String)
    (h : k ∈ m.map Prod.fst) : (dict_insert m k v).length = m.length := by
  obtain ⟨p, hp, hpk⟩ := List.mem_map.mp h
  have hany : m.any (fun p => p.1 == k) = true :=
    List.any_eq_true.mpr ⟨p, hp, by simp [hpk]⟩
  unfold dict_insert
  rw [if_pos hany, List.length_map]

lemma mem_keys_dict_insert (m : List (String × String)) (k v a : String)
    (h : a ∈ m.map Prod.fst) : a ∈ (dict_insert m k v).map Prod.fst := by
  unfold dict_insert
  split
  · obtain ⟨p, hp, hpk⟩ := List.mem_map.mp h
    by_cases hpk2 : p.1 = k
    · refine List.mem_map.mpr ⟨(k, v), ?_, by rw [← hpk2, hpk]⟩
      exact List.mem_map.mpr ⟨p, hp, by simp [hpk2]⟩
    · refine List.mem_map.mpr ⟨p, ?_, hpk⟩
      exact List.mem_map.mpr ⟨p, hp, by simp [hpk2]⟩
  · simp only [List.map_append, List.mem_append]
    exact Or.inl h

lemma self_mem_keys_dict_insert (m : List (String × String)) (k v : String) :
    k ∈ (dict_insert m k v).map Prod.fst := by
  unfold dict_insert
  split
  · rename_i hany
    obtain ⟨p, hp, hpk⟩ := List.any_eq_true.mp hany
    refine List.mem_map.mpr ⟨(k, v), ?_, rfl⟩
    refine List.mem_map.mpr ⟨p, hp, ?_⟩
    simp [show (p.1 == k) = true by simpa using hpk]
  · simp

lemma foldl_dict_insert_length_le (scanned : List (String × String)) :
    ∀ m : List (String × String),
      (scanned.foldl (fun hashes p => dict_insert hashes p.1 p.2) m).length ≤
        m.length + scanned.length := by
  induction scanned with
  | nil => intro m; simp
  | cons q t ih =>
    intro m
    calc (t.foldl (fun hashes p => dict_insert hashes p.1 p.2)
            (dict_insert m q.1 q.2)).length
        ≤ (dict_insert m q.1 q.2).length + t.length := ih _
      _ ≤ (m.length + 1) + t.length :=
          Nat.add_le_add_right (dict_insert_length_le m q.1 q.2) _
      _ = m.length + (q :: t).length := by simp; omega

lemma foldl_dict_insert_length_lt_of_mem (scanned : List (String × String)) :
    ∀ m : List (String × String),
      (∃ k, k ∈ scanned.map Prod.fst ∧ k ∈ m.map Prod.fst) →
      (scanned.foldl (fun hashes p => dict_insert hashes p.1 p.2) m).length <
        m.length + scanned.length := by
  induction scanned with
  | nil =>
    rintro m ⟨k, hk, -⟩
    simp at hk
  | cons q t ih =>
    rintro m ⟨k, hk, hkm⟩
    rw [List.map_cons] at hk
    rcases List.mem_cons.mp hk with rfl | hkt
    · have h1 : (dict_insert m q.1 q.2).length = m.length :=
        dict_insert_length_of_mem m q.1 q.2 hkm
      calc (t.foldl (fun hashes p => dict_insert hashes p.1 p.2)
              (dict_insert m q.1 q.2)).length
          ≤ (dict_insert m q.1 q.2).length + t.length := foldl_dict_insert_length_le t _
        _ = m.length + t.length := by rw [h1]
        _ < m.length + (q :: t).length := by simp
    · have hkm2 : k ∈ (dict_insert m q.1 q.2).map Prod.fst :=
        mem_keys_dict_insert m q.1 q.2 k hkm
      calc (t.foldl (fun hashes p => dict_insert hashes p.1 p.2)
              (dict_insert m q.1 q.2)).length
          < (dict_insert m q.1 q.2).length + t.length := ih _ ⟨k, hkt, hkm2⟩
        _ ≤ (m.length + 1) + t.length :=
            Nat.add_le_add_right (dict_insert_length_le m q.1 q.2) _
        _ = m.length + (q :: t).length := by simp; omega

lemma foldl_dict_insert_length_lt_of_dup (scanned : List (String × String)) :
    ∀ m : List (String × String), ¬(scanned.map Prod.fst).Nodup →
      (scanned.foldl (fun hashes p => dict_insert hashes p.1 p.2) m).length <
        m.length + scanned.length := by
  induction scanned with
  | nil => intro m h; simp at h
  | cons q t ih =>
    intro m h
    rw [List.map_cons, List.nodup_cons] at h
    by_cases hq : q.1 ∈ t.map Prod.fst
    · have : q.1 ∈ (dict_insert m q.1 q.2).map Prod.fst :=
        self_mem_keys_dict_insert m q.1 q.2
      calc (t.foldl (fun hashes p => dict_insert hashes p.1 p.2)
              (dict_insert m q.1 q.2)).length
          < (dict_insert m q.1 q.2).length + t.length :=
            foldl_dict_insert_length_lt_of_mem t _ ⟨q.1, hq, this⟩
        _ ≤ (m.length + 1) + t.length :=
            Nat.add_le_add_right (dict_insert_length_le m q.1 q.2) _
        _ = m.length + (q :: t).length := by simp; omega
    · have hnd : ¬(t.map Prod.fst).Nodup := fun hnd => h ⟨hq, hnd⟩
      calc (t.foldl (fun hashes p => dict_insert hashes p.1 p.2)
              (dict_insert m q.1 q.2)).length
          < (dict_insert m q.1 q.2).length + t.length := ih _ hnd
        _ ≤ (m.length + 1) + t.length :=
            Nat.add_le_add_right (dict_insert_length_le m q.1 q.2) _
        _ = m.length + (q :: t).length := by simp; omega

lemma foldl_dict_insert_lookupD (scanned : List (String × String)) :
    ∀ (m : List (String × String)) (k : String),
      lookupD (scanned.foldl (fun hashes p => dict_insert hashes p.1 p.2) m) k =
        match scanned.reverse.find? (fun p => p.1 == k) with
        | Option.some p => Option.some p.2
        | Option.none => lookupD m k := by
  induction scanned with
  | nil => intro m k; rfl
  | cons q t ih =>
    intro m k
    simp only [List.foldl_cons, List.reverse_cons]
    rw [ih, List.find?_append]
    cases h : t.reverse.find? (fun p => p.1 == k)
    · simp only [h, Option.none_or]
      rw [lookupD_dict_insert]
      by_cases hqk : q.1 = k
      · simp [List.find?, hqk]
      · have : (q.1 == k) = false := by simp [hqk]
        simp [List.find?, this, if_neg (fun hh : k = q.1 => hqk hh.symm)]
    · simp [h, Option.or]

/-- C9: across every scan loop, a repeated row signature silently overwrites
the previously stored hash (the map keeps the hash of the last such row, in
scan order), so the resulting map never exceeds the number of rows scanned
and is strictly smaller whenever any two scanned rows share a signature.
The accumulation is total — no duplicate is ever reported as an error. -/
theorem c9_duplicate_signature_last_wins :
    ∀ scanned : List (String × String),
      (accumulate_hashes scanned).length ≤ scanned.length ∧
      (¬(scanned.map Prod.fst).Nodup →
        (accumulate_hashes scanned).length < scanned.length) ∧
      (∀ k, lookupD (accumulate_hashes scanned) k =
        match scanned.reverse.find? (fun p => p.1 == k) with
        | Option.some p => Option.some p.2
        | Option.none => Option.none) := by
  intro scanned
  refine ⟨?_, ?_, ?_⟩
  · simpa using foldl_dict_insert_length_le scanned []
  · intro h
    simpa using foldl_dict_insert_length_lt_of_dup scanned [] h
  · intro k
    rw [accumulate_hashes, foldl_dict_insert_lookupD scanned [] k]
    cases scanned.reverse.find? (fun p => p.1 == k) <;> rfl

theorem c9_duplicate_signature_last_wins_witness :
    (accumulate_hashes [("a", "1"), ("a", "2")]).length < 2 ∧
      lookupD (accumulate_hashes [("a", "1"), ("a", "2")]) "a" = Option.some "2" := by
  constructor
  · exact (c9_duplicate_signature_last_wins [("a", "1"), ("a", "2")]).2.1 (by decide)
  · rw [(c9_duplicate_signature_last_wins [("a", "1"), ("a", "2")]).2.2 "a"]
    decide

end AccumulationClaims

section ScanClaims

/-- Shifting the scan start by one chunk: the page sizes only depend on the
rows remaining, so scanning `N` rows from offset `offset + c` is the
offset-shifted scan of `N - c` rows from `offset`. -/
lemma scanTrace_shift (c N : Nat) :
    ∀ offset, scanTrace c N (offset + c)
      = (scanTrace c (N - c) offset).map (fun p => (p.1 + c, p.2)) := by
  have key : ∀ d offset, (N - c) - offset ≤ d →
      scanTrace c N (offset + c)
        = (scanTrace c (N - c) offset).map (fun p => (p.1 + c, p.2)) := by
    intro d
    induction d with
    | zero =>
      intro offset hle
      have heq : N - (offset + c) = (N - c) - offset := by omega
      have h0 : min c ((N - c) - offset) = 0 := by
        rw [Nat.le_zero.mp hle]
        exact Nat.min_zero c
      conv_lhs => rw [scanTrace]
      conv_rhs => rw [scanTrace]
      rw [dif_pos (by rw [heq]; exact h0), dif_pos h0]
      simp
    | succ d ih =>
      intro offset hle
      have heq : N - (offset + c) = (N - c) - offset := by omega
      conv_lhs => rw [scanTrace]
      conv_rhs => rw [scanTrace]
      by_cases h0 : min c ((N - c) - offset) = 0
      · rw [dif_pos (by rw [heq]; exact h0), dif_pos h0]
        simp
      · rw [dif_neg (by rw [heq]; exact h0), dif_neg h0]
        simp only [List.map_cons]
        have hc : 0 < c := by
          rcases Nat.eq_zero_or_pos c with h | h
          · exact absurd (by simp [h]) h0
          · exact h
        have hrem : 0 < (N - c) - offset := by
          rcases Nat.eq_zero_or_pos ((N - c) - offset) with h | h
          · exact absurd (by simp [h]) h0
          · exact h
        refine congrArg₂ _ ?_ ?_
        · rw [heq]
        · exact ih (offset + c) (by omega)
  intro offset
  exact key ((N - c) - offset) offset le_rfl

/-- Closed form of the chunked full-scan trace started at offset `0`:
`ceil(N / c) + 1` page requests, the `i`-th at offset `i * c` returning
`min c (N - i * c)` rows. -/
lemma scanTrace_eq_range_map (c : Nat) (hc : 0 < c) :
    ∀ N, scanTrace c N 0 = (List.range ((N + c - 1) / c + 1)).map
      (fun i => (i * c, min c (N - i * c))) := by
  intro N
  induction N using Nat.strong_induction_on with
  | _ N ih =>
    by_cases hN : N = 0
    · subst hN
      rw [scanTrace, dif_pos (by simp)]
      rw [show (0 + c - 1) / c = 0 from Nat.div_eq_of_lt (by omega)]
      simp [List.range_succ]
    · have hNpos : 0 < N := Nat.pos_of_ne_zero hN
      rw [scanTrace, dif_neg (by rw [Nat.sub_zero, Nat.min_eq_zero_iff]; omega)]
      rw [scanTrace_shift c N 0, ih (N - c) (by omega)]
      have hceil : (N + c - 1) / c = (N - c + c - 1) / c + 1 := by
        by_cases hcN : N ≤ c
        · have h1 : N - c = 0 := by omega
          have h2 : (N + c - 1) / c = 1 := by
            apply Nat.div_eq_of_lt_le
            · omega
            · omega
          have h3 : (0 + c - 1) / c = 0 := Nat.div_eq_of_lt (by omega)
          rw [h1, h2, h3]
        · push_neg at hcN
          have h4 : N + c - 1 = (N - c + c - 1) + c := by omega
          rw [h4, Nat.add_div_right _ hc]
      rw [hceil]
      conv_rhs => rw [List.range_succ_eq_map]
      simp only [List.map_cons, List.map_map]
      congr 1
      · simp
      congr 1
      funext i
      have hm : (i + 1) * c = i * c + c := Nat.succ_mul i c
      have hs : N - c - i * c = N - (i * c + c) := by
        rw [Nat.sub_sub, Nat.add_comm]
      simp only [Function.comp_apply, Nat.succ_eq_add_one]
      rw [hm, ← hs]

lemma ceil_mul_ge (c N : Nat) (hc : 0 < c) : N ≤ ((N + c - 1) / c) * c := by
  have h1 := Nat.div_add_mod (N + c - 1) c
  have h2 := Nat.mod_lt (N + c - 1) hc
  obtain ⟨q, hq⟩ : ∃ q, (N + c - 1) / c = q := ⟨_, rfl⟩
  obtain ⟨r, hr⟩ : ∃ r, (N + c - 1) % c = r := ⟨_, rfl⟩
  rw [hq, hr] at h1
  rw [hr] at h2
  rw [hq, Nat.mul_comm]
  obtain ⟨a, ha⟩ : ∃ a, c * q = a := ⟨_, rfl⟩
  rw [ha] at h1 ⊢
  omega

/-- C6: for every table of `N` rows and chunk size `c > 0`, the full-scan
loop of `_get_all_table_hashes` terminates after exactly
`ceil(N / c) + 1 = (N + c - 1) / c + 1` page requests, issued at offsets
`0, c, 2c, ...` (the `i`-th request at offset `i * c` returns
`min c (N - i * c)` rows), and the final request — at offset
`ceil(N / c) * c` — returns zero rows and is the one that ends the loop. -/
theorem c6_full_scan_page_requests (N c : Nat) (hc : 0 < c) :
    scanTrace c N 0 = (List.range ((N + c - 1) / c + 1)).map
        (fun i => (i * c, min c (N - i * c))) ∧
      (scanTrace c N 0).length = (N + c - 1) / c + 1 ∧
      (scanTrace c N 0).getLast? = Option.some (((N + c - 1) / c) * c, 0) := by
  have hchar := scanTrace_eq_range_map c hc N
  refine ⟨hchar, by rw [hchar]; simp, ?_⟩
  rw [hchar, List.range_succ, List.map_append]
  simp only [List.map_cons, List.map_nil]
  rw [List.getLast?_concat]
  have hge : N - ((N + c - 1) / c) * c = 0 := by
    have := ceil_mul_ge c N hc
    omega
  rw [hge, Nat.min_zero]

theorem c6_full_scan_page_requests_witness :
    scanTrace 2 5 0 = [(0, 2), (2, 2), (4, 1), (6, 0)] ∧
      (scanTrace 2 5 0).length = 4 ∧
      (scanTrace 2 5 0).getLast? = Option.some (6, 0) := by
  obtain ⟨h1, h2, h3⟩ := c6_full_scan_page_requests 5 2 (by decide)
  refine ⟨?_, ?_, ?_⟩
  · rw [h1]; decide
  · rw [h2]
  · rw [h3]

end ScanClaims

section CompareLemmas

lemma lookupD_some_imp_mem (m : List (String × String)) (k v : String)
    (h : lookupD m k = Option.some v) : k ∈ m.map Prod.fst := by
  unfold lookupD at h
  cases hf : m.find? (fun p => p.1 == k) with
  | none => rw [hf] at h; cases h
  | some p =>
    have hmem := List.mem_of_find?_eq_some hf
    have hkey := List.find?_some hf
    exact List.mem_map.mpr ⟨p, hmem, by simpa using hkey⟩

lemma lookupD_isSome_of_mem (m : List (String × String)) (k : String)
    (h : k ∈ m.map Prod.fst) : ∃ v, lookupD m k = Option.some v := by
  induction m with
  | nil => simp at h
  | cons q t ih =>
    rw [lookupD_cons]
    by_cases hq : q.1 = k
    · exact ⟨q.2, by rw [if_pos hq]⟩
    · rw [if_neg hq]
      refine ih ?_
      rcases List.mem_map.mp h with ⟨p, hp, hpk⟩
      rcases List.mem_cons.mp hp with rfl | hpt
      · exact absurd hpk hq
      · exact List.mem_map.mpr ⟨p, hpt, hpk⟩

lemma lookupD_eq_of_mem_nodup (m : List (String × String))
    (hn : (m.map Prod.fst).Nodup) (p : String × String) (hp : p ∈ m) :
    lookupD m p.1 = Option.some p.2 := by
  induction m with
  | nil => simp at hp
  | cons q t ih =>
    rw [List.map_cons, List.nodup_cons] at hn
    rw [lookupD_cons]
    rcases List.mem_cons.mp hp with rfl | hpt
    · rw [if_pos rfl]
    · have hq : q.1 ≠ p.1 := by
        intro hqp
        exact hn.1 (hqp ▸ List.mem_map.mpr ⟨p, hpt, rfl⟩)
      rw [if_neg hq]
      exact ih hn.2 hpt

lemma compare_sampled_mem (sh th : List (String × String)) (m : MismatchRecord)
    (h : m ∈ compare_sampled sh th) :
    m.status = "hash_mismatch" ∧ m.row_identifier ∈ sh.map Prod.fst ∧
      m.row_identifier ∈ th.map Prod.fst := by
  obtain ⟨p, hp, hf⟩ := List.mem_filterMap.mp h
  split at hf
  · cases hf
  · rename_i w hl
    split at hf
    · cases hf
      exact ⟨rfl, List.mem_map.mpr ⟨p, hp, rfl⟩, lookupD_some_imp_mem th p.1 w hl⟩
    · cases hf

lemma compare_full_source_pass_mem (sh th : List (String × String)) (m : MismatchRecord)
    (h : m ∈ compare_full_source_pass sh th) :
    ∃ p ∈ sh, m.row_identifier = p.1 ∧
      ((lookupD th p.1 = Option.none ∧ m.status = "missing_in_target") ∨
       (∃ w, lookupD th p.1 = Option.some w ∧ w ≠ p.2 ∧ m.status = "hash_mismatch")) := by
  obtain ⟨p, hp, hf⟩ := List.mem_filterMap.mp h
  split at hf
  · rename_i hl
    cases hf
    exact ⟨p, hp, rfl, Or.inl ⟨hl, rfl⟩⟩
  · rename_i w hl
    split at hf
    · rename_i hw
      cases hf
      exact ⟨p, hp, rfl, Or.inr ⟨w, hl, hw, rfl⟩⟩
    · cases hf

lemma compare_full_target_pass_mem (sh th : List (String × String)) (m : MismatchRecord)
    (h : m ∈ compare_full_target_pass sh th) :
    ∃ p ∈ th, m.row_identifier = p.1 ∧ lookupD sh p.1 = Option.none ∧
      m.status = "missing_in_source" := by
  obtain ⟨p, hp, hf⟩ := List.mem_filterMap.mp h
  split at hf
  · rename_i hl
    cases hf
    exact ⟨p, hp, rfl, hl, rfl⟩
  · cases hf

/-- Any predicate that requires `row_identifier = sig` counts zero over the
source pass when `sig` is not a source-map key. -/
lemma source_pass_countP_zero_of_not_mem (sh th : List (String × String)) (sig : String)
    (h : sig ∉ sh.map Prod.fst) (q : MismatchRecord → Bool) :
    (compare_full_source_pass sh th).countP
        (fun m => q m && m.row_identifier == sig) = 0 := by
  rw [List.countP_eq_zero]
  intro m hm
  obtain ⟨p, hp, hid, -⟩ := compare_full_source_pass_mem sh th m hm
  have : m.row_identifier ≠ sig := by
    rw [hid]
    intro hps
    exact h (hps ▸ List.mem_map.mpr ⟨p, hp, rfl⟩)
  simp [this]

lemma source_pass_countP_ms_zero (sh th : List (String × String))
    (q : MismatchRecord → Bool) :
    (compare_full_source_pass sh th).countP
        (fun m => m.status == "missing_in_source" && q m) = 0 := by
  rw [List.countP_eq_zero]
  intro m hm
  obtain ⟨p, hp, -, hcase⟩ := compare_full_source_pass_mem sh th m hm
  rcases hcase with ⟨-, hst⟩ | ⟨w, -, -, hst⟩ <;> simp [hst]

lemma target_pass_countP_status_zero (sh th : List (String × String)) (st : String)
    (hst : st ≠ "missing_in_source") (q : MismatchRecord → Bool) :
    (compare_full_target_pass sh th).countP
        (fun m => m.status == st && q m) = 0 := by
  rw [List.countP_eq_zero]
  intro m hm
  obtain ⟨p, hp, -, -, hs⟩ := compare_full_target_pass_mem sh th m hm
  simp [hs, fun hh : st = "missing_in_source" => hst hh]
  intro hcontra
  exact absurd hcontra.symm hst

end CompareLemmas

section CountLemmas

lemma source_pass_cons (th : List (String × String)) (p : String × String)
    (t : List (String × String)) :
    compare_full_source_pass (p :: t) th =
      match lookupD th p.1 with
      | Option.none =>
        { row_identifier := p.1, status := "missing_in_target",
          source_hash := Option.some p.2, target_hash := Option.none } ::
          compare_full_source_pass t th
      | Option.some w =>
        if w ≠ p.2 then
          { row_identifier := p.1, status := "hash_mismatch",
            source_hash := Option.some p.2, target_hash := Option.some w } ::
            compare_full_source_pass t th
        else compare_full_source_pass t th := by
  unfold compare_full_source_pass
  rw [List.filterMap_cons]
  cases lookupD th p.1 with
  | none => rfl
  | some w =>
    by_cases hw : w = p.2
    · simp [hw]
    · simp [hw]

lemma target_pass_cons (sh : List (String × String)) (p : String × String)
    (t : List (String × String)) :
    compare_full_target_pass sh (p :: t) =
      match lookupD sh p.1 with
      | Option.none =>
        { row_identifier := p.1, status := "missing_in_source",
          source_hash := Option.none, target_hash := Option.some p.2 } ::
          compare_full_target_pass sh t
      | Option.some _ => compare_full_target_pass sh t := by
  unfold compare_full_target_pass
  rw [List.filterMap_cons]
  cases lookupD sh p.1 with
  | none => rfl
  | some w => rfl

lemma target_pass_countP_zero_of_not_mem (sh th : List (String × String)) (sig : String)
    (h : sig ∉ th.map Prod.fst) (q : MismatchRecord → Bool) :
    (compare_full_target_pass sh th).countP
        (fun m => q m && m.row_identifier == sig) = 0 := by
  rw [List.countP_eq_zero]
  intro m hm
  obtain ⟨p, hp, hid, -, -⟩ := compare_full_target_pass_mem sh th m hm
  have : m.row_identifier ≠ sig := by
    rw [hid]
    intro hps
    exact h (hps ▸ List.mem_map.mpr ⟨p, hp, rfl⟩)
  simp [this]

lemma source_pass_countP_mt (th : List (String × String)) (sig : String) :
    ∀ sh : List (String × String), (sh.map Prod.fst).Nodup →
      (compare_full_source_pass sh th).countP
          (fun m => m.status == "missing_in_target" && m.row_identifier == sig)
        = match lookupD sh sig, lookupD th sig with
          | Option.some _, Option.none => 1
          | _, _ => 0 := by
  intro sh
  induction sh with
  | nil => intro _; rfl
  | cons p t ih =>
    intro hn
    rw [List.map_cons, List.nodup_cons] at hn
    rw [source_pass_cons, lookupD_cons]
    by_cases hps : p.1 = sig
    · subst hps
      have hz := source_pass_countP_zero_of_not_mem t th p.1 hn.1
        (fun m => m.status == "missing_in_target")
      cases hl : lookupD th p.1 with
      | none => simp [hl, List.countP_cons, hz]
      | some w =>
        by_cases hw : w = p.2
        · simp [hl, hw, hz]
        · simp [hl, hw, List.countP_cons, hz]
    · have hid : (p.1 == sig) = false := by simp [hps]
      cases hl : lookupD th p.1 with
      | none => simp [hl, List.countP_cons, hid, ih hn.2, hps]
      | some w =>
        by_cases hw : w = p.2
        · simp [hl, hw, ih hn.2, hps]
        · simp [hl, hw, List.countP_cons, hid, ih hn.2, hps]

lemma source_pass_countP_hm (th : List (String × String)) (sig : String) :
    ∀ sh : List (String × String), (sh.map Prod.fst).Nodup →
      (compare_full_source_pass sh th).countP
          (fun m => m.status == "hash_mismatch" && m.row_identifier == sig)
        = match lookupD sh sig, lookupD th sig with
          | Option.some v, Option.some w => if w ≠ v then 1 else 0
          | _, _ => 0 := by
  intro sh
  induction sh with
  | nil => intro _; rfl
  | cons p t ih =>
    intro hn
    rw [List.map_cons, List.nodup_cons] at hn
    rw [source_pass_cons, lookupD_cons]
    by_cases hps : p.1 = sig
    · subst hps
      have hz := source_pass_countP_zero_of_not_mem t th p.1 hn.1
        (fun m => m.status == "hash_mismatch")
      cases hl : lookupD th p.1 with
      | none => simp [hl, List.countP_cons, hz]
      | some w =>
        by_cases hw : w = p.2
        · simp [hl, hw, hz]
        · simp [hl, hw, List.countP_cons, hz]
    · have hid : (p.1 == sig) = false := by simp [hps]
      cases hl : lookupD th p.1 with
      | none => simp [hl, List.countP_cons, hid, ih hn.2, hps]
      | some w =>
        by_cases hw : w = p.2
        · simp [hl, hw, ih hn.2, hps]
        · simp [hl, hw, List.countP_cons, hid, ih hn.2, hps]

lemma target_pass_countP_ms (sh : List (String × String)) (sig : String) :
    ∀ th : List (String × String), (th.map Prod.fst).Nodup →
      (compare_full_target_pass sh th).countP
          (fun m => m.status == "missing_in_source" && m.row_identifier == sig)
        = match lookupD th sig, lookupD sh sig with
          | Option.some _, Option.none => 1
          | _, _ => 0 := by
  intro th
  induction th with
  | nil => intro _; rfl
  | cons p t ih =>
    intro hn
    rw [List.map_cons, List.nodup_cons] at hn
    rw [target_pass_cons, lookupD_cons]
    by_cases hps : p.1 = sig
    · subst hps
      have hz := target_pass_countP_zero_of_not_mem sh t p.1 hn.1
        (fun m => m.status == "missing_in_source")
      cases hl : lookupD sh p.1 with
      | none => simp [hl, List.countP_cons, hz]
      | some w => simp [hl, hz]
    · have hid : (p.1 == sig) = false := by simp [hps]
      cases hl : lookupD sh p.1 with
      | none => simp [hl, List.countP_cons, hid, ih hn.2, hps]
      | some w => simp [hl, ih hn.2, hps]

end CountLemmas

section ValidateTableLemmas

/-- Every run of `validate_table` either ends in an error result (caught
exception or failed schema/identifier check: an error message, no mismatch
records, `sampling_used = false`), or completes the comparison, in which case
the mismatch list is exactly the comparison of the two scanned hash maps and
the status is `success` exactly when that list is empty. -/
lemma validate_table_shape (env : TableEnv) :
    ((validate_table env).error ≠ Option.none ∧ (validate_table env).mismatches = [] ∧
      (validate_table env).sampling_used = false) ∨
    (∃ sh th, env.source_hashes = Except.ok sh ∧ env.target_hashes = Except.ok th ∧
      (validate_table env).error = Option.none ∧
      (validate_table env).mismatches =
        compare_hashes (validate_table env).sampling_used sh th ∧
      ((validate_table env).status = "success" ↔ (validate_table env).mismatches = []) ∧
      ((validate_table env).mismatches ≠ [] →
        (validate_table env).status = "mismatch")) := by
  cases hbody : validate_table_body env with
  | error e =>
    have hvr : validate_table env = errResult e := by
      unfold validate_table
      rw [hbody]
    left
    rw [hvr]
    exact ⟨by simp [errResult], rfl, rfl⟩
  | ok result =>
    have hvr : validate_table env = result := by
      unfold validate_table
      rw [hbody]
    rw [hvr]
    unfold validate_table_body at hbody
    cases hsc : env.source_columns with
    | error e => rw [hsc] at hbody; simp at hbody
    | ok source_columns =>
    rw [hsc] at hbody
    cases htc : env.target_columns with
    | error e => rw [htc] at hbody; simp at hbody
    | ok target_columns =>
    rw [htc] at hbody
    simp only [] at hbody
    split at hbody
    · cases hbody; left; exact ⟨by simp [errResult], rfl, rfl⟩
    · split at hbody
      · cases hbody; left; exact ⟨by simp [errResult], rfl, rfl⟩
      · split at hbody
        · cases hbody
        · split at hbody
          · cases hbody
          · split at hbody
            · cases hbody; left; exact ⟨by simp [errResult], rfl, rfl⟩
            · split at hbody
              · cases hbody; left; exact ⟨by simp [errResult], rfl, rfl⟩
              · split at hbody
                · cases hbody
                · rename_i nsrc hnsrc
                  split at hbody
                  · cases hbody
                  · rename_i ntgt hntgt
                    split at hbody
                    · cases hbody
                    · rename_i sh hsh
                      split at hbody
                      · cases hbody
                      · rename_i th hth
                        cases hbody
                        right
                        refine ⟨sh, th, hsh, hth, rfl, rfl, ?_, ?_⟩
                        · by_cases hemp : (compare_hashes
                              (env.config.sampling_enabled &&
                                (decide (nsrc > env.config.max_rows_for_full_scan) ||
                                 decide (ntgt > env.config.max_rows_for_full_scan)))
                              sh th).isEmpty
                          · have he := List.isEmpty_iff.mp hemp
                            simp [hemp, he]
                          · have he : compare_hashes
                                (env.config.sampling_enabled &&
                                  (decide (nsrc > env.config.max_rows_for_full_scan) ||
                                   decide (ntgt > env.config.max_rows_for_full_scan)))
                                sh th ≠ [] := by
                              simpa [List.isEmpty_iff] using hemp
                            simp [hemp, he]
                        · intro hne
                          have hemp : (compare_hashes
                              (env.config.sampling_enabled &&
                                (decide (nsrc > env.config.max_rows_for_full_scan) ||
                                 decide (ntgt > env.config.max_rows_for_full_scan)))
                              sh th).isEmpty = false := List.isEmpty_eq_false.mpr hne
                          simp [hemp]

end ValidateTableLemmas

section SampledClaims

/-- C1: whenever sampling was in force (`sampling_used = true`), every
mismatch record that `validate_table` produces has status `hash_mismatch`
and its row identifier is a key of both sampled identifier-to-hash maps; in
particular no `missing_in_target` or `missing_in_source` record is ever
produced in sampled mode, however the two sampled key sets differ. -/
theorem c1_sampled_mode_only_common_hash_mismatches (env : TableEnv)
    (sh th : List (String × String))
    (hs : env.source_hashes = Except.ok sh) (ht : env.target_hashes = Except.ok th)
    (hsamp : (validate_table env).sampling_used = true) :
    ∀ m ∈ (validate_table env).mismatches,
      m.status = "hash_mismatch" ∧ m.row_identifier ∈ sh.map Prod.fst ∧
        m.row_identifier ∈ th.map Prod.fst := by
  intro m hm
  rcases validate_table_shape env with ⟨-, hemp, hfalse⟩ | ⟨sh2, th2, hs2, ht2, -, hmm, -, -⟩
  · rw [hemp] at hm
    simp at hm
  · rw [hs2] at hs
    rw [ht2] at ht
    cases hs
    cases ht
    rw [hmm, hsamp] at hm
    exact compare_sampled_mem _ _ m hm

theorem c1_sampled_mode_only_common_hash_mismatches_witness :
    env_sampled.source_hashes = Except.ok [("1", "a")] ∧
      (validate_table env_sampled).sampling_used = true ∧
      ∀ m ∈ (validate_table env_sampled).mismatches,
        m.status = "hash_mismatch" ∧ m.row_identifier ∈ ["1"] ∧
          m.row_identifier ∈ ["1"] := by
  refine ⟨rfl, rfl, ?_⟩
  have h := c1_sampled_mode_only_common_hash_mismatches env_sampled
    [("1", "a")] [("1", "b")] rfl rfl rfl
  intro m hm
  simpa using h m hm

end SampledClaims

section FullScanClaims

/-- C2: in full-scan mode (comparison completed, `sampling_used = false`),
`validate_table` produces, for every signature, exactly one
`missing_in_target` record iff the signature is a source key missing from
the target map, exactly one `missing_in_source` record iff it is a target
key missing from the source map, exactly one `hash_mismatch` record iff it
is a key of both maps with differing stored hashes, and no record at all
for a signature present in both maps with equal hashes. -/
theorem c2_full_scan_classifies_every_signature (env : TableEnv)
    (sh th : List (String × String)) (sig : String)
    (hs : env.source_hashes = Except.ok sh) (ht : env.target_hashes = Except.ok th)
    (hns : (sh.map Prod.fst).Nodup) (hnt : (th.map Prod.fst).Nodup)
    (herr : (validate_table env).error = Option.none)
    (hsamp : (validate_table env).sampling_used = false) :
    ((validate_table env).mismatches.countP
        (fun m => m.status == "missing_in_target" && m.row_identifier == sig)
      = if sig ∈ sh.map Prod.fst ∧ sig ∉ th.map Prod.fst then 1 else 0) ∧
    ((validate_table env).mismatches.countP
        (fun m => m.status == "missing_in_source" && m.row_identifier == sig)
      = if sig ∈ th.map Prod.fst ∧ sig ∉ sh.map Prod.fst then 1 else 0) ∧
    ((validate_table env).mismatches.countP
        (fun m => m.status == "hash_mismatch" && m.row_identifier == sig)
      = if sig ∈ sh.map Prod.fst ∧ sig ∈ th.map Prod.fst ∧
            lookupD sh sig ≠ lookupD th sig then 1 else 0) ∧
    (sig ∈ sh.map Prod.fst → sig ∈ th.map Prod.fst →
      lookupD sh sig = lookupD th sig →
      (validate_table env).mismatches.countP (fun m => m.row_identifier == sig) = 0) := by
  rcases validate_table_shape env with ⟨hne, -, -⟩ | ⟨sh2, th2, hs2, ht2, -, hmm, -, -⟩
  · exact absurd herr hne
  · rw [hs2] at hs
    cases hs
    rw [ht2] at ht
    cases ht
    have hcf : (validate_table env).mismatches = compare_full sh th := by
      rw [hmm, hsamp]
      rfl
    have hmt := source_pass_countP_mt th sig sh hns
    have hhm := source_pass_countP_hm th sig sh hns
    have hms := target_pass_countP_ms sh sig th hnt
    have hz1 : (compare_full_target_pass sh th).countP
        (fun m => m.status == "missing_in_target" && m.row_identifier == sig) = 0 :=
      target_pass_countP_status_zero sh th _ (by decide) (fun m => m.row_identifier == sig)
    have hz2 : (compare_full_target_pass sh th).countP
        (fun m => m.status == "hash_mismatch" && m.row_identifier == sig) = 0 :=
      target_pass_countP_status_zero sh th _ (by decide) (fun m => m.row_identifier == sig)
    have hz3 : (compare_full_source_pass sh th).countP
        (fun m => m.status == "missing_in_source" && m.row_identifier == sig) = 0 :=
      source_pass_countP_ms_zero sh th (fun m => m.row_identifier == sig)
    have hnotmemS : lookupD sh sig = Option.none → sig ∉ sh.map Prod.fst := by
      intro hl hmem
      obtain ⟨v, hv⟩ := lookupD_isSome_of_mem sh sig hmem
      rw [hl] at hv
      cases hv
    have hnotmemT : lookupD th sig = Option.none → sig ∉ th.map Prod.fst := by
      intro hl hmem
      obtain ⟨v, hv⟩ := lookupD_isSome_of_mem th sig hmem
      rw [hl] at hv
      cases hv
    refine ⟨?_, ?_, ?_, ?_⟩
    · rw [hcf]
      unfold compare_full
      rw [List.countP_append, hmt, hz1]
      rcases hl1 : lookupD sh sig with _ | v <;> rcases hl2 : lookupD th sig with _ | w
      · simp [hnotmemS hl1]
      · simp [hnotmemS hl1]
      · simp [lookupD_some_imp_mem sh sig v hl1, hnotmemT hl2]
      · simp [lookupD_some_imp_mem th sig w hl2]
    · rw [hcf]
      unfold compare_full
      rw [List.countP_append, hms, hz3]
      rcases hl1 : lookupD sh sig with _ | v <;> rcases hl2 : lookupD th sig with _ | w
      · simp [hnotmemT hl2]
      · simp [lookupD_some_imp_mem th sig w hl2, hnotmemS hl1]
      · simp [hnotmemT hl2]
      · simp [lookupD_some_imp_mem sh sig v hl1]
    · rw [hcf]
      unfold compare_full
      rw [List.countP_append, hhm, hz2]
      rcases hl1 : lookupD sh sig with _ | v <;> rcases hl2 : lookupD th sig with _ | w
      · simp [hnotmemS hl1]
      · simp [hnotmemS hl1]
      · simp [hnotmemT hl2]
      · by_cases hvw : w = v
        · simp [hvw, lookupD_some_imp_mem sh sig v hl1, lookupD_some_imp_mem th sig w hl2]
        · have hne2 : (Option.some v : Option String) ≠ Option.some w :=
            fun hh => hvw (Option.some.inj hh).symm
          simp only []
          rw [if_pos hvw,
            if_pos ⟨lookupD_some_imp_mem sh sig v hl1,
              lookupD_some_imp_mem th sig w hl2, hne2⟩]
    · intro hm1 hm2 heq
      rw [hcf, List.countP_eq_zero]
      intro m hmem
      simp only [compare_full, List.mem_append] at hmem
      simp only [beq_iff_eq]
      intro hid2
      rcases hmem with hA | hB
      · obtain ⟨p, hp, hid, hcase⟩ := compare_full_source_pass_mem sh th m hA
        have hpsig : p.1 = sig := by rw [← hid, hid2]
        have hlp : lookupD sh sig = Option.some p.2 := by
          rw [← hpsig]
          exact lookupD_eq_of_mem_nodup sh hns p hp
        rcases hcase with ⟨hnone, -⟩ | ⟨w, hw1, hw2, -⟩
        · rw [hpsig] at hnone
          rw [hnone, hlp] at heq
          cases heq
        · rw [hpsig] at hw1
          rw [hlp, hw1] at heq
          cases heq
          exact hw2 rfl
      · obtain ⟨p, hp, hid, hnone, -⟩ := compare_full_target_pass_mem sh th m hB
        have hpsig : p.1 = sig := by rw [← hid, hid2]
        rw [hpsig] at hnone
        exact hnotmemS hnone hm1

theorem c2_full_scan_classifies_every_signature_witness :
    (validate_table env_full).mismatches.countP
        (fun m => m.status == "missing_in_target" && m.row_identifier == "2") = 1 ∧
      (validate_table env_full).mismatches.countP
        (fun m => m.status == "missing_in_source" && m.row_identifier == "3") = 1 ∧
      (validate_table env_full).mismatches.countP
        (fun m => m.row_identifier == "1") = 0 := by
  refine ⟨?_, ?_, ?_⟩
  · have h := (c2_full_scan_classifies_every_signature env_full
      [("1", "a"), ("2", "b")] [("1", "a"), ("3", "c")] "2"
      rfl rfl (by decide) (by decide) rfl rfl).1
    rw [h]
    decide
  · have h := (c2_full_scan_classifies_every_signature env_full
      [("1", "a"), ("2", "b")] [("1", "a"), ("3", "c")] "3"
      rfl rfl (by decide) (by decide) rfl rfl).2.1
    rw [h]
    decide
  · exact (c2_full_scan_classifies_every_signature env_full
      [("1", "a"), ("2", "b")] [("1", "a"), ("3", "c")] "1"
      rfl rfl (by decide) (by decide) rfl rfl).2.2.2 (by decide) (by decide) (by decide)

end FullScanClaims

section ErrorIsolationClaims

/-- C3: `validate_table` never propagates an exception to its caller — an
exception raised by any introspection or query step is caught and converted
into a `status = "error"` result with the message — and when the comparison
completes, the status is `success` exactly when the mismatch list is empty
and `mismatch` otherwise; `validate_all` catches per-table failures too, so
every configured table receives a result and one table's failure cannot
abort validation of the remaining tables. -/
theorem c3_errors_isolated_per_table :
    (∀ env : TableEnv, (validate_table env).error = Option.none →
      (((validate_table env).status = "success" ↔
          (validate_table env).mismatches = []) ∧
       ((validate_table env).mismatches ≠ [] →
          (validate_table env).status = "mismatch"))) ∧
    (∀ (env : TableEnv) (e : String), validate_table_body env = Except.error e →
      validate_table env = errResult e) ∧
    (∀ (tables : List String) (outcome : String → Except String TableResult),
      (validate_all tables outcome).map Prod.fst = tables) := by
  refine ⟨?_, ?_, ?_⟩
  · intro env herr
    rcases validate_table_shape env with ⟨hne, -, -⟩ | ⟨-, -, -, -, -, -, hiff, hmis⟩
    · exact absurd herr hne
    · exact ⟨hiff, hmis⟩
  · intro env e hbody
    unfold validate_table
    rw [hbody]
  · intro tables outcome
    induction tables with
    | nil => rfl
    | cons a t ih =>
      unfold validate_all at ih ⊢
      simp only [List.map_cons]
      exact congrArg (fun l => a :: l) ih

theorem c3_errors_isolated_per_table_witness :
    ((validate_table env_full).status = "success" ↔
        (validate_table env_full).mismatches = []) ∧
      validate_table env_err = errResult "boom" ∧
      (validate_all ["t1", "t2"] outcome_err).map Prod.fst = ["t1", "t2"] :=
  ⟨(c3_errors_isolated_per_table.1 env_full rfl).1,
   c3_errors_isolated_per_table.2.1 env_err "boom" rfl,
   c3_errors_isolated_per_table.2.2 ["t1", "t2"] outcome_err⟩

end ErrorIsolationClaims
